import Mathlib

/-!
Verification development for `pong.py` (lego-pong).

Modelling conventions for the shallow embedding:
* Python ints are `ℤ` (or `ℕ` for counters that never go negative).
* Python floats are modelled as exact rationals `ℚ` (for the game arithmetic,
  which only adds, multiplies and divides) and as reals `ℝ` for the one place
  a fractional power appears (`accelerate`, which uses `** 1.5`).
* `pygame.Rect` stores integer coordinates; assigning a float to a rect field
  converts it with Python `int(...)`, i.e. truncation toward zero (`pytrunc`).
* Fallible operations (the serial poll) return an `Option`/`Bool` result and
  the exception path is an explicit `none` input.
-/

namespace LegoPong

/-- Python `int(...)` applied to a rational: truncation toward zero. -/
def pytrunc (q : ℚ) : ℤ :=
  if 0 ≤ q then ⌊q⌋ else -⌊-q⌋

/-! ## Delta Accumulator (pong.py lines 100-111, single axis)

`read_motor_positions` holds, per axis, a pending delta (`motor_a_delta`) and
the previous absolute reading (`last_motor_a`, initially `None`).  On each
successful poll it adds `new - last` to the pending delta when a previous
reading exists, and always stores the new reading. -/

structure AxisState where
  delta : ℤ
  last : Option ℤ
deriving DecidableEq

/-- Fresh axis state: the module globals start with `motor_a_delta = 0` and
`last_motor_a = None` (pong.py lines 52-54). -/
def initAxis : AxisState := ⟨0, none⟩

/-- One successful absolute reading processed on one axis
(pong.py lines 102-107, specialised to motor A; motor B is symmetric). -/
def accumStep (s : AxisState) (r : ℤ) : AxisState :=
  { delta := match s.last with
      | some p => s.delta + (r - p)
      | none => s.delta
    last := some r }

/-- A sequence of successful readings processed in order with no drain. -/
def accumRun (s : AxisState) (rs : List ℤ) : AxisState :=
  rs.foldl accumStep s

/-- Consumer drain of one axis, under the lock: read the pending delta and
zero it (pong.py lines 524-528 and 367-373). -/
def drainAxis (s : AxisState) : ℤ × AxisState :=
  (s.delta, { s with delta := 0 })

/-- An interleaving step seen by the axis state: either the poll thread
accumulates a reading, or a consumer drains. -/
inductive AxisOp
  | accum (r : ℤ)
  | drain
deriving DecidableEq

/-- Run an interleaving; returns the final state and the list of values the
drains returned, in order. -/
def runAxis : AxisState → List AxisOp → AxisState × List ℤ
  | s, [] => (s, [])
  | s, AxisOp.accum r :: ops => runAxis (accumStep s r) ops
  | s, AxisOp.drain :: ops =>
      let d := drainAxis s
      let rest := runAxis d.2 ops
      (rest.1, d.1 :: rest.2)

/-- The readings an interleaving feeds to the accumulator, in order. -/
def readingsOf : List AxisOp → List ℤ
  | [] => []
  | AxisOp.accum r :: ops => r :: readingsOf ops
  | AxisOp.drain :: ops => readingsOf ops

/-! ## Poll response parsing (pong.py lines 91-98)

`read_motor_positions` scans the raw serial echo with
Python `re.search` with the pattern `POS:\s*(-?\d+)\s+(-?\d+)\s+(True|False)`.
The embedding below implements exactly that search: try the pattern at every
start position from the left; at a position, match the literal `POS:`, then
zero-or-more whitespace, a signed integer, one-or-more whitespace, a signed
integer, one-or-more whitespace, and the literal `True` or `False`.  (The
regex is backtracking-free on this pattern because digits, `-`, `T` and `F`
are not whitespace, so greedy maximal munch is equivalent.) -/

/-- Python regex `\d` restricted to ASCII digits. -/
def pyDigit (c : Char) : Bool :=
  '0' ≤ c && c ≤ '9'

/-- Python regex `\s` restricted to ASCII whitespace. -/
def pySpace (c : Char) : Bool :=
  c = ' ' || c = '\t' || c = '\n' || c = '\r' || c = '\x0b' || c = '\x0c'

/-- Greedy `\d+`: one or more digits, returning their value and the rest. -/
def parseDigits (s : List Char) : Option (ℕ × List Char) :=
  let ds := s.takeWhile pyDigit
  if ds.isEmpty then none
  else some (ds.foldl (fun acc c => 10 * acc + (c.toNat - 48)) 0, s.dropWhile pyDigit)

/-- Greedy `-?\d+`. -/
def parseSigned (s : List Char) : Option (ℤ × List Char) :=
  match s with
  | '-' :: rest => (parseDigits rest).map (fun p => (-(p.1 : ℤ), p.2))
  | _ => (parseDigits s).map (fun p => ((p.1 : ℤ), p.2))

/-- Greedy `\s*`. -/
def skipSpaces (s : List Char) : List Char :=
  s.dropWhile pySpace

/-- Greedy `\s+`. -/
def parseSpaces1 (s : List Char) : Option (List Char) :=
  match s with
  | c :: rest => if pySpace c then some (skipSpaces rest) else none
  | [] => none

/-- Match a literal character sequence at the front. -/
def stripLit : List Char → List Char → Option (List Char)
  | [], s => some s
  | _ :: _, [] => none
  | l :: ls, c :: cs => if c = l then stripLit ls cs else none

/-- Match `(True|False)` at the front. -/
def parseBool (s : List Char) : Option Bool :=
  match stripLit ['T', 'r', 'u', 'e'] s with
  | some _ => some true
  | none =>
      match stripLit ['F', 'a', 'l', 's', 'e'] s with
      | some _ => some false
      | none => none

/-- Try the whole pattern anchored at the front of `s`. -/
def matchPOSAt (s : List Char) : Option (ℤ × ℤ × Bool) := do
  let s1 ← stripLit ['P', 'O', 'S', ':'] s
  let s2 := skipSpaces s1
  let (a, s3) ← parseSigned s2
  let s4 ← parseSpaces1 s3
  let (e, s5) ← parseSigned s4
  let s6 ← parseSpaces1 s5
  let b ← parseBool s6
  pure (a, e, b)

/-- Search as `re.search` does: the match at the leftmost start position that succeeds. -/
def searchPOS : List Char → Option (ℤ × ℤ × Bool)
  | [] => none
  | c :: rest =>
      match matchPOSAt (c :: rest) with
      | some r => some r
      | none => searchPOS rest

/-! ## Shared motion state (pong.py lines 50-58 and 77-117) -/

/-- The module-level shared state guarded by `position_lock`
(pong.py lines 50-58). -/
structure MotionState where
  motor_a_position : ℤ
  motor_b_position : ℤ
  motor_a_delta : ℤ
  motor_b_delta : ℤ
  last_motor_a : Option ℤ
  last_motor_b : Option ℤ
  hub_button_pressed : Bool
  hub_connected : Bool
deriving DecidableEq

/-- Initial values of the shared globals (pong.py lines 50-58). -/
def initialMotionState : MotionState :=
  ⟨0, 0, 0, 0, none, none, false, false⟩

/-- One poll attempt (pong.py lines 77-117).  The input is `none` when the
serial I/O raised (the `except` path: nothing was mutated, return `False`),
otherwise `some response` with the decoded text that was read.  Returns the
updated shared state and the boolean result of the function. -/
def read_motor_positions (response : Option String) (st : MotionState) :
    MotionState × Bool :=
  match response with
  | none => (st, false)
  | some r =>
      match searchPOS r.data with
      | none => (st, false)
      | some (new_a, new_e, button) =>
          ({ motor_a_position := new_a
             motor_b_position := new_e
             motor_a_delta :=
               match st.last_motor_a with
               | some p => st.motor_a_delta + (new_a - p)
               | none => st.motor_a_delta
             motor_b_delta :=
               match st.last_motor_b with
               | some p => st.motor_b_delta + (new_e - p)
               | none => st.motor_b_delta
             last_motor_a := some new_a
             last_motor_b := some new_e
             hub_button_pressed := button
             hub_connected := true }, true)

/-- Consumer drain of both axes under the lock (pong.py lines 524-528):
read both pending deltas and the button level, zero both deltas. -/
def drain_deltas (st : MotionState) : (ℤ × ℤ × Bool) × MotionState :=
  ((st.motor_a_delta, st.motor_b_delta, st.hub_button_pressed),
    { st with motor_a_delta := 0, motor_b_delta := 0 })

/-! ## Motion Mapper -/

/-- Fixed tunable from `main` (pong.py line 474). -/
def sensitivity : ℝ := 1.5

/-- The `accelerate` closure in `main` (pong.py lines 537-540):
`sign * (abs(delta) ** 1.5) * sensitivity` where `sign` is `1` when
`delta >= 0` and `-1` otherwise.  The argument is the drained integer motor
delta; `**` is modelled by the real power. -/
noncomputable def accelerate (delta : ℤ) : ℝ :=
  (if 0 ≤ delta then (1 : ℝ) else -1) * (|delta| : ℝ) ^ (1.5 : ℝ) * sensitivity

/-- Embedding of `motor_to_paddle_y` (pong.py lines 152-171): clamp the angle to
[-90, 90] and map linearly onto [0, screen_height - paddle_height]; `int()`
truncates the resulting float.  (The `normalized` value computed on line 161
of the source is unused and is omitted.) -/
def motor_to_paddle_y (motor_pos screen_height paddle_height : ℤ) : ℤ :=
  let max_y : ℤ := screen_height - paddle_height
  let clamped : ℤ := max (-90) (min 90 motor_pos)
  pytrunc ((((clamped : ℚ) + 90) / 180) * (max_y : ℚ))

/-! ## Ball state machine (pong.py lines 174-282) -/

/-- Game constants (pong.py lines 39-41). -/
def PADDLE_WIDTH : ℤ := 15

def BALL_SIZE : ℤ := 15

inductive Player
  | one
  | two
deriving DecidableEq

/-- A paddle: fixed x, mutable top-left y, per-match height; its rect is
`(x, y, PADDLE_WIDTH, height)` (pong.py lines 174-177). -/
structure Paddle where
  x : ℤ
  y : ℤ
  height : ℤ
deriving DecidableEq

/-- Value of `rect.centery` for a paddle. -/
def Paddle.centery (p : Paddle) : ℤ :=
  p.y + p.height / 2

/-- The ball (pong.py lines 186-197): rect top-left at `(x, y)` with size
`BALL_SIZE`, the skills of the two players, base and current scalar speed, hit
counter, velocity, and the attachment state. -/
structure Ball where
  x : ℤ
  y : ℤ
  p1_skill : ℤ
  p2_skill : ℤ
  base_speed : ℚ
  speed : ℚ
  hit_count : ℕ
  dx : ℚ
  dy : ℚ
  attached_to : Option Player
deriving DecidableEq

/-- Value of `rect.centery` for the ball. -/
def Ball.centery (b : Ball) : ℤ :=
  b.y + BALL_SIZE / 2

/-- Embedding of `Ball.get_skill_speed_multiplier` (pong.py lines 199-203). -/
def Ball.get_skill_speed_multiplier (b : Ball) (target_player : Player) : ℚ :=
  let skill := match target_player with
    | Player.one => b.p1_skill
    | Player.two => b.p2_skill
  0.6 + ((skill : ℚ) - 1) * 0.2

/-- Embedding of `Ball.attach_to_paddle` (pong.py lines 205-211). -/
def Ball.attach_to_paddle (b : Ball) (player : Player) : Ball :=
  { b with attached_to := some player, dx := 0, dy := 0,
           speed := b.base_speed, hit_count := 0 }

/-- Embedding of `Ball.__init__` (pong.py lines 187-197): rect at the origin, base speed 7,
zero velocity and hit count, then `attach_to_paddle(2)`. -/
def Ball.new (p1_skill p2_skill : ℤ) : Ball :=
  Ball.attach_to_paddle
    { x := 0, y := 0, p1_skill := p1_skill, p2_skill := p2_skill,
      base_speed := 7, speed := 7, hit_count := 0, dx := 0, dy := 0,
      attached_to := none }
    Player.two

/-- Embedding of `Ball.launch` (pong.py lines 213-222). -/
def Ball.launch (b : Ball) : Ball :=
  match b.attached_to with
  | none => b
  | some p =>
      let target : Player := match p with
        | Player.two => Player.one
        | Player.one => Player.two
      let direction : ℚ := match p with
        | Player.two => -1
        | Player.one => 1
      let skill_mult := b.get_skill_speed_multiplier target
      { b with dx := direction * b.speed * skill_mult, dy := 3,
               attached_to := none }

/-- Overlap test `pygame.Rect.colliderect` between the ball rect and a paddle rect:
true when the rectangles properly overlap (touching edges do not collide). -/
def colliderect (b : Ball) (p : Paddle) : Bool :=
  decide (b.x < p.x + PADDLE_WIDTH ∧ p.x < b.x + BALL_SIZE ∧
    b.y < p.y + p.height ∧ p.y < b.y + BALL_SIZE)

/-- Movement integration (pong.py lines 237-238): `rect.x += dx` and
`rect.y += dy`; the rect stores ints, so the float sum is truncated. -/
def Ball.move (b : Ball) : Ball :=
  { b with x := pytrunc ((b.x : ℚ) + b.dx), y := pytrunc ((b.y : ℚ) + b.dy) }

/-- Top/bottom wall bounce (pong.py lines 241-242). -/
def Ball.wall (screen_height : ℤ) (b : Ball) : Ball :=
  if b.y ≤ 0 ∨ screen_height ≤ b.y + BALL_SIZE then { b with dy := -b.dy } else b

/-- Collision response with paddle 1 (pong.py lines 245-257). -/
def Ball.hit1 (b : Ball) (paddle1 : Paddle) : Ball :=
  if colliderect b paddle1 ∧ b.dx < 0 then
    let hit_count := b.hit_count + 1
    let speed := if hit_count % 3 = 0 then min (b.speed + 1) 20 else b.speed
    let skill_mult := b.get_skill_speed_multiplier Player.two
    let relative_hit : ℚ :=
      ((b.centery - paddle1.centery : ℤ) : ℚ) / ((paddle1.height : ℚ) / 2)
    { b with hit_count := hit_count, speed := speed,
             dx := speed * skill_mult,
             dy := relative_hit * (speed * 0.8) }
  else b

/-- Collision response with paddle 2 (pong.py lines 259-271). -/
def Ball.hit2 (b : Ball) (paddle2 : Paddle) : Ball :=
  if colliderect b paddle2 ∧ 0 < b.dx then
    let hit_count := b.hit_count + 1
    let speed := if hit_count % 3 = 0 then min (b.speed + 1) 20 else b.speed
    let skill_mult := b.get_skill_speed_multiplier Player.one
    let relative_hit : ℚ :=
      ((b.centery - paddle2.centery : ℤ) : ℚ) / ((paddle2.height : ℚ) / 2)
    { b with hit_count := hit_count, speed := speed,
             dx := -(speed * skill_mult),
             dy := relative_hit * (speed * 0.8) }
  else b

/-- Embedding of `Ball.update` (pong.py lines 224-279).  The screen dimensions are passed
explicitly because the source reads the module globals, which `main`
reassigns from the detected display.  Returns the new ball and the scorer
(`some Player.one` for "player 1 scores"). -/
def Ball.update (screen_width screen_height : ℤ) (b : Ball)
    (paddle1 paddle2 : Paddle) : Ball × Option Player :=
  if b.attached_to = some Player.one then
    ({ b with x := paddle1.x + PADDLE_WIDTH + 5,
              y := paddle1.centery - BALL_SIZE / 2 }, none)
  else if b.attached_to = some Player.two then
    ({ b with x := paddle2.x - BALL_SIZE - 5,
              y := paddle2.centery - BALL_SIZE / 2 }, none)
  else
    let b1 := ((b.move.wall screen_height).hit1 paddle1).hit2 paddle2
    let scorer : Option Player :=
      if b1.x ≤ 0 then some Player.two
      else if screen_width ≤ b1.x + BALL_SIZE then some Player.one
      else none
    (b1, scorer)

/-- Reaction of the caller to a scorer in `main` (pong.py lines 554-560):
bump the score of the winner and attach the ball to the loser. -/
def handle_score (ball : Ball) (scorer : Option Player) (score1 score2 : ℤ) :
    Ball × ℤ × ℤ :=
  match scorer with
  | some Player.one => (ball.attach_to_paddle Player.two, score1 + 1, score2)
  | some Player.two => (ball.attach_to_paddle Player.one, score1, score2 + 1)
  | none => (ball, score1, score2)

/-- The operations the game loop ever performs on a ball. -/
inductive BallOp
  | attach (p : Player)
  | launch
  | tick (screen_width screen_height : ℤ) (paddle1 paddle2 : Paddle)

def Ball.step (b : Ball) : BallOp → Ball
  | BallOp.attach p => b.attach_to_paddle p
  | BallOp.launch => b.launch
  | BallOp.tick w h p1 p2 => (b.update w h p1 p2).1

def Ball.steps (b : Ball) (ops : List BallOp) : Ball :=
  ops.foldl Ball.step b

/-- The speed invariant: base speed is the constructor value 7 and the scalar
speed stays within [7, 20]. -/
def SpeedOK (b : Ball) : Prop :=
  b.base_speed = 7 ∧ 7 ≤ b.speed ∧ b.speed ≤ 20

/-! ## Sample objects used by the witness theorems -/

/-- A free ball one tick away from a dead-centre hit on paddle 1. -/
def sampleBall : Ball :=
  { x := 40, y := 293, p1_skill := 3, p2_skill := 3, base_speed := 7,
    speed := 7, hit_count := 0, dx := -5, dy := 0, attached_to := none }

/-- A free ball about to cross the right screen edge. -/
def sampleBallRight : Ball :=
  { x := 790, y := 300, p1_skill := 3, p2_skill := 3, base_speed := 7,
    speed := 7, hit_count := 0, dx := 10, dy := 0, attached_to := none }

def samplePaddle1 : Paddle := ⟨30, 250, 100⟩

def samplePaddle2 : Paddle := ⟨755, 250, 100⟩

/-- A shared state with a previous reading on axis A. -/
def sampleMotionState : MotionState :=
  ⟨0, 0, 2, 0, some 5, none, false, false⟩

/-! ## Helper lemmas -/

theorem pytrunc_of_nonneg {q : ℚ} (h : 0 ≤ q) : pytrunc q = ⌊q⌋ :=
  if_pos h

theorem pytrunc_intCast (n : ℤ) (h : 0 ≤ n) : pytrunc (n : ℚ) = n := by
  rw [pytrunc_of_nonneg (by exact_mod_cast h), Int.floor_intCast]

theorem pytrunc_mono_nonneg {a b : ℚ} (ha : 0 ≤ a) (hab : a ≤ b) :
    pytrunc a ≤ pytrunc b := by
  rw [pytrunc_of_nonneg ha, pytrunc_of_nonneg (ha.trans hab)]
  exact Int.floor_le_floor hab

theorem accumRun_from_some (rs : List ℤ) :
    ∀ (d p : ℤ), accumRun ⟨d, some p⟩ rs =
      ⟨d + (rs.getLastD p - p), some (rs.getLastD p)⟩ := by
  induction rs with
  | nil => intro d p; simp [accumRun]
  | cons r rs ih =>
      intro d p
      show accumRun (accumStep ⟨d, some p⟩ r) rs = _
      have hstep : accumStep ⟨d, some p⟩ r = ⟨d + (r - p), some r⟩ := rfl
      rw [hstep, ih (d + (r - p)) r, List.getLastD_cons]
      congr 1
      ring

theorem accumRun_delta_shift (rs : List ℤ) :
    ∀ (d : ℤ) (l : Option ℤ),
      (accumRun ⟨d, l⟩ rs).delta = d + (accumRun ⟨0, l⟩ rs).delta ∧
      (accumRun ⟨d, l⟩ rs).last = (accumRun ⟨0, l⟩ rs).last := by
  induction rs with
  | nil => intro d l; simp [accumRun]
  | cons r rs ih =>
      intro d l
      have hc : ∀ s : AxisState, accumRun s (r :: rs) = accumRun (accumStep s r) rs :=
        fun s => rfl
      rw [hc, hc]
      cases l with
      | none =>
          have h1 : accumStep ⟨d, (none : Option ℤ)⟩ r = ⟨d, some r⟩ := rfl
          have h2 : accumStep ⟨0, (none : Option ℤ)⟩ r = ⟨0, some r⟩ := rfl
          rw [h1, h2]
          exact ih d (some r)
      | some p =>
          have h1 : accumStep ⟨d, some p⟩ r = ⟨d + (r - p), some r⟩ := rfl
          have h2 : accumStep ⟨0, some p⟩ r = ⟨0 + (r - p), some r⟩ := rfl
          rw [h1, h2]
          have ha := ih (d + (r - p)) (some r)
          have hb := ih (0 + (r - p)) (some r)
          constructor
          · rw [ha.1, hb.1]; ring
          · rw [ha.2, hb.2]

theorem runAxis_conservation (ops : List AxisOp) :
    ∀ s : AxisState,
      ((runAxis s ops).2.sum + (runAxis s ops).1.delta =
        (accumRun s (readingsOf ops)).delta) ∧
      (runAxis s ops).1.last = (accumRun s (readingsOf ops)).last := by
  induction ops with
  | nil => intro s; simp [runAxis, readingsOf, accumRun]
  | cons op ops ih =>
      intro s
      cases op with
      | accum r =>
          show ((runAxis (accumStep s r) ops).2.sum + _ = _) ∧ _
          exact ih (accumStep s r)
      | drain =>
          have hs : runAxis s (AxisOp.drain :: ops) =
              ((runAxis ⟨0, s.last⟩ ops).1,
                s.delta :: (runAxis ⟨0, s.last⟩ ops).2) := rfl
          rw [hs]
          have hread : readingsOf (AxisOp.drain :: ops) = readingsOf ops := rfl
          rw [hread]
          have ihz := ih ⟨0, s.last⟩
          have hshift := accumRun_delta_shift (readingsOf ops) s.delta s.last
      -- rebuild `accumRun s _` from `accumRun ⟨0, s.last⟩ _` by the shift lemma
          constructor
          · have : accumRun s (readingsOf ops) = accumRun ⟨s.delta, s.last⟩ (readingsOf ops) := rfl
            rw [this]
            simp only [List.sum_cons]
            rw [hshift.1]
            have := ihz.1
            linarith [ihz.1]
          · have : accumRun s (readingsOf ops) = accumRun ⟨s.delta, s.last⟩ (readingsOf ops) := rfl
            rw [this, hshift.2]
            exact ihz.2

theorem runAxis_final_append_drain (ops : List AxisOp) :
    ∀ s : AxisState, (runAxis s (ops ++ [AxisOp.drain])).1.delta = 0 := by
  induction ops with
  | nil => intro s; rfl
  | cons op ops ih =>
      intro s
      cases op with
      | accum r => exact ih (accumStep s r)
      | drain => exact ih ⟨0, s.last⟩

theorem move_hit_count (b : Ball) : b.move.hit_count = b.hit_count := rfl

theorem move_speed (b : Ball) : b.move.speed = b.speed := rfl

theorem move_dx (b : Ball) : b.move.dx = b.dx := rfl

theorem move_dy (b : Ball) : b.move.dy = b.dy := rfl

theorem move_base_speed (b : Ball) : b.move.base_speed = b.base_speed := rfl

theorem move_attached (b : Ball) : b.move.attached_to = b.attached_to := rfl

theorem wall_x (H : ℤ) (b : Ball) : (b.wall H).x = b.x := by
  unfold Ball.wall; split <;> rfl

theorem wall_y (H : ℤ) (b : Ball) : (b.wall H).y = b.y := by
  unfold Ball.wall; split <;> rfl

theorem wall_dx (H : ℤ) (b : Ball) : (b.wall H).dx = b.dx := by
  unfold Ball.wall; split <;> rfl

theorem wall_speed (H : ℤ) (b : Ball) : (b.wall H).speed = b.speed := by
  unfold Ball.wall; split <;> rfl

theorem wall_hit_count (H : ℤ) (b : Ball) : (b.wall H).hit_count = b.hit_count := by
  unfold Ball.wall; split <;> rfl

theorem wall_base_speed (H : ℤ) (b : Ball) : (b.wall H).base_speed = b.base_speed := by
  unfold Ball.wall; split <;> rfl

theorem wall_attached (H : ℤ) (b : Ball) : (b.wall H).attached_to = b.attached_to := by
  unfold Ball.wall; split <;> rfl

theorem wall_centery (H : ℤ) (b : Ball) : (b.wall H).centery = b.centery := by
  unfold Ball.centery; rw [wall_y]

theorem colliderect_wall (H : ℤ) (b : Ball) (q : Paddle) :
    colliderect (b.wall H) q = colliderect b q := by
  unfold Ball.wall; split <;> rfl

theorem colliderect_hit1 (b : Ball) (p q : Paddle) :
    colliderect (b.hit1 p) q = colliderect b q := by
  unfold Ball.hit1; split <;> rfl

theorem hit1_x (b : Ball) (p : Paddle) : (b.hit1 p).x = b.x := by
  unfold Ball.hit1; split <;> rfl

theorem hit1_y (b : Ball) (p : Paddle) : (b.hit1 p).y = b.y := by
  unfold Ball.hit1; split <;> rfl

theorem hit1_base_speed (b : Ball) (p : Paddle) : (b.hit1 p).base_speed = b.base_speed := by
  unfold Ball.hit1; split <;> rfl

theorem hit1_attached (b : Ball) (p : Paddle) : (b.hit1 p).attached_to = b.attached_to := by
  unfold Ball.hit1; split <;> rfl

theorem hit2_x (b : Ball) (p : Paddle) : (b.hit2 p).x = b.x := by
  unfold Ball.hit2; split <;> rfl

theorem hit2_y (b : Ball) (p : Paddle) : (b.hit2 p).y = b.y := by
  unfold Ball.hit2; split <;> rfl

theorem hit2_base_speed (b : Ball) (p : Paddle) : (b.hit2 p).base_speed = b.base_speed := by
  unfold Ball.hit2; split <;> rfl

theorem hit2_attached (b : Ball) (p : Paddle) : (b.hit2 p).attached_to = b.attached_to := by
  unfold Ball.hit2; split <;> rfl

theorem hit1_spec (b : Ball) (p : Paddle)
    (hc : colliderect b p = true) (hdx : b.dx < 0) :
    b.hit1 p =
      { b with
        hit_count := b.hit_count + 1,
        speed := if (b.hit_count + 1) % 3 = 0 then min (b.speed + 1) 20 else b.speed,
        dx := (if (b.hit_count + 1) % 3 = 0 then min (b.speed + 1) 20 else b.speed) *
          b.get_skill_speed_multiplier Player.two,
        dy := ((b.centery - p.centery : ℤ) : ℚ) / ((p.height : ℚ) / 2) *
          ((if (b.hit_count + 1) % 3 = 0 then min (b.speed + 1) 20 else b.speed) * 0.8) } := by
  unfold Ball.hit1
  rw [if_pos ⟨hc, hdx⟩]

theorem hit1_not (b : Ball) (p : Paddle)
    (h : ¬(colliderect b p = true ∧ b.dx < 0)) : b.hit1 p = b := by
  unfold Ball.hit1
  rw [if_neg h]

theorem hit2_spec (b : Ball) (p : Paddle)
    (hc : colliderect b p = true) (hdx : 0 < b.dx) :
    b.hit2 p =
      { b with
        hit_count := b.hit_count + 1,
        speed := if (b.hit_count + 1) % 3 = 0 then min (b.speed + 1) 20 else b.speed,
        dx := -((if (b.hit_count + 1) % 3 = 0 then min (b.speed + 1) 20 else b.speed) *
          b.get_skill_speed_multiplier Player.one),
        dy := ((b.centery - p.centery : ℤ) : ℚ) / ((p.height : ℚ) / 2) *
          ((if (b.hit_count + 1) % 3 = 0 then min (b.speed + 1) 20 else b.speed) * 0.8) } := by
  unfold Ball.hit2
  rw [if_pos ⟨hc, hdx⟩]

theorem hit2_not (b : Ball) (p : Paddle)
    (h : ¬(colliderect b p = true ∧ 0 < b.dx)) : b.hit2 p = b := by
  unfold Ball.hit2
  rw [if_neg h]

theorem wall_spec (H : ℤ) (b : Ball) (h : b.y ≤ 0 ∨ H ≤ b.y + BALL_SIZE) :
    b.wall H = { b with dy := -b.dy } := by
  unfold Ball.wall
  rw [if_pos h]

theorem wall_not (H : ℤ) (b : Ball) (h : ¬(b.y ≤ 0 ∨ H ≤ b.y + BALL_SIZE)) :
    b.wall H = b := by
  unfold Ball.wall
  rw [if_neg h]

theorem update_free (W H : ℤ) (b : Ball) (p1 p2 : Paddle)
    (h : b.attached_to = none) :
    b.update W H p1 p2 =
      ((((b.move).wall H).hit1 p1).hit2 p2,
        if ((((b.move).wall H).hit1 p1).hit2 p2).x ≤ 0 then some Player.two
        else if W ≤ ((((b.move).wall H).hit1 p1).hit2 p2).x + BALL_SIZE then
          some Player.one
        else none) := by
  unfold Ball.update
  rw [if_neg (by rw [h]; exact fun hc => Option.noConfusion hc),
    if_neg (by rw [h]; exact fun hc => Option.noConfusion hc)]

theorem launch_some (b : Ball) (p : Player) (h : b.attached_to = some p) :
    b.launch =
      { b with
        dx := (match p with | Player.two => (-1 : ℚ) | Player.one => 1) * b.speed *
          b.get_skill_speed_multiplier
            (match p with | Player.two => Player.one | Player.one => Player.two),
        dy := 3,
        attached_to := none } := by
  cases p with
  | one => simp only [Ball.launch, h]
  | two => simp only [Ball.launch, h]

theorem launch_none (b : Ball) (h : b.attached_to = none) : b.launch = b := by
  unfold Ball.launch
  rw [h]

/-! ## Claim theorems -/

/-- C1: for every sequence of successful absolute readings `r0, ..., rn`
processed on one axis with no intervening drain, the pending delta equals
`rn - r0` exactly (each step adds `new - prev` with no wraparound correction)
and the stored previous reading equals `rn`; and a successful poll applies
exactly this step to each axis of the shared state. -/
theorem delta_accumulator_no_wrap :
    (∀ d p r : ℤ, accumStep ⟨d, some p⟩ r = ⟨d + (r - p), some r⟩) ∧
    (∀ (r0 : ℤ) (rs : List ℤ),
        (accumRun initAxis (r0 :: rs)).delta = rs.getLastD r0 - r0 ∧
        (accumRun initAxis (r0 :: rs)).last = some (rs.getLastD r0)) ∧
    (∀ (st : MotionState) (r : String) (a e : ℤ) (btn : Bool),
        searchPOS r.data = some (a, e, btn) →
        (read_motor_positions (some r) st).1.motor_a_delta =
            (accumStep ⟨st.motor_a_delta, st.last_motor_a⟩ a).delta ∧
        (read_motor_positions (some r) st).1.last_motor_a =
            (accumStep ⟨st.motor_a_delta, st.last_motor_a⟩ a).last ∧
        (read_motor_positions (some r) st).1.motor_b_delta =
            (accumStep ⟨st.motor_b_delta, st.last_motor_b⟩ e).delta ∧
        (read_motor_positions (some r) st).1.last_motor_b =
            (accumStep ⟨st.motor_b_delta, st.last_motor_b⟩ e).last) := by
  refine ⟨fun d p r => rfl, fun r0 rs => ?_, fun st r a e btn hs => ?_⟩
  · have h0 : accumRun initAxis (r0 :: rs) = accumRun ⟨0, some r0⟩ rs := rfl
    rw [h0, accumRun_from_some]
    exact ⟨by ring, rfl⟩
  · simp only [read_motor_positions]
    rw [hs]
    unfold accumStep
    cases st.last_motor_a <;> cases st.last_motor_b <;> simp

/-- C1 witness: a concrete successful poll with a stored previous reading
`5` and pending delta `2` on axis A accumulates `2 + (-45 - 5)`. -/
theorem delta_accumulator_no_wrap_witness :
    (read_motor_positions (some "POS: -45 12 False") sampleMotionState).1.motor_a_delta =
      (accumStep ⟨2, some 5⟩ (-45)).delta :=
  (delta_accumulator_no_wrap.2.2 sampleMotionState "POS: -45 12 False"
    (-45) 12 false (by decide)).1

/-- C2: draining returns the current pending delta and zeros it (so a read
immediately after a drain yields zero), and over any interleaving of
accumulate and drain steps, the drained values plus the final pending delta
account for exactly the rotation the readings accumulated — each unit is
returned by exactly one drain exactly once.  The full-state drain in `main`
does this for both axes under the lock. -/
theorem drain_take_and_reset :
    (∀ s : AxisState, drainAxis s = (s.delta, ⟨0, s.last⟩)) ∧
    (∀ s : AxisState, (drainAxis s).2.delta = 0) ∧
    (∀ (s : AxisState) (ops : List AxisOp),
        (runAxis s (ops ++ [AxisOp.drain])).1.delta = 0) ∧
    (∀ (s : AxisState) (ops : List AxisOp),
        (runAxis s ops).2.sum + (runAxis s ops).1.delta =
          (accumRun s (readingsOf ops)).delta) ∧
    (∀ st : MotionState,
        drain_deltas st =
          ((st.motor_a_delta, st.motor_b_delta, st.hub_button_pressed),
            { st with motor_a_delta := 0, motor_b_delta := 0 })) := by
  exact ⟨fun s => rfl, fun s => rfl,
    fun s ops => runAxis_final_append_drain ops s,
    fun s ops => (runAxis_conservation ops s).1,
    fun st => rfl⟩

/-- C7: the skill speed multiplier is `0.6 + (skill - 1) * 0.2` for the
skill of the target player, so it is 0.6 at skill 1, 1.0 at skill 3, 1.4 at
skill 5, and lies in [0.6, 1.4] whenever both skills are in 1..5. -/
theorem skill_multiplier_spec :
    (∀ b : Ball, b.get_skill_speed_multiplier Player.one =
        0.6 + ((b.p1_skill : ℚ) - 1) * 0.2) ∧
    (∀ b : Ball, b.get_skill_speed_multiplier Player.two =
        0.6 + ((b.p2_skill : ℚ) - 1) * 0.2) ∧
    (∀ b : Ball, b.p1_skill = 1 → b.get_skill_speed_multiplier Player.one = 0.6) ∧
    (∀ b : Ball, b.p1_skill = 3 → b.get_skill_speed_multiplier Player.one = 1) ∧
    (∀ b : Ball, b.p1_skill = 5 → b.get_skill_speed_multiplier Player.one = 1.4) ∧
    (∀ (b : Ball) (t : Player),
        1 ≤ b.p1_skill → b.p1_skill ≤ 5 → 1 ≤ b.p2_skill → b.p2_skill ≤ 5 →
        0.6 ≤ b.get_skill_speed_multiplier t ∧
          b.get_skill_speed_multiplier t ≤ 1.4) := by
  refine ⟨fun b => rfl, fun b => rfl,
    fun b h => by norm_num [Ball.get_skill_speed_multiplier, h],
    fun b h => by norm_num [Ball.get_skill_speed_multiplier, h],
    fun b h => by norm_num [Ball.get_skill_speed_multiplier, h],
    fun b t h1 h2 h3 h4 => ?_⟩
  cases t with
  | one =>
      have hl : (1 : ℚ) ≤ (b.p1_skill : ℚ) := by exact_mod_cast h1
      have hr : (b.p1_skill : ℚ) ≤ 5 := by exact_mod_cast h2
      unfold Ball.get_skill_speed_multiplier
      constructor <;> [nlinarith; nlinarith]
  | two =>
      have hl : (1 : ℚ) ≤ (b.p2_skill : ℚ) := by exact_mod_cast h3
      have hr : (b.p2_skill : ℚ) ≤ 5 := by exact_mod_cast h4
      unfold Ball.get_skill_speed_multiplier
      constructor <;> [nlinarith; nlinarith]

/-- C7 witness: a ball with player-1 skill 1 has multiplier 0.6 toward
player 1. -/
theorem skill_multiplier_spec_witness :
    (Ball.new 1 3).get_skill_speed_multiplier Player.one = 0.6 :=
  skill_multiplier_spec.2.2.1 (Ball.new 1 3) rfl

/-- C6: launch is a no-op unless the ball is attached; from `AttachedTo(p)`
it sets the horizontal velocity toward the opposing player with magnitude
speed times the multiplier of the opponent, sets the vertical velocity to 3, and frees
the ball; with the ball attached to player 2 and p1 skill 3 the result is
`dx = -7`, `dy = 3`. -/
theorem ball_launch_spec :
    (∀ (b : Ball) (p : Player), b.attached_to = some p →
        (b.launch).attached_to = none ∧
        (b.launch).dy = 3 ∧
        (b.launch).dx =
          (if p = Player.two then (-1 : ℚ) else 1) * b.speed *
            b.get_skill_speed_multiplier
              (if p = Player.two then Player.one else Player.two) ∧
        (b.launch).speed = b.speed) ∧
    (∀ b : Ball, b.attached_to = none → b.launch = b) ∧
    ((Ball.new 3 5).launch.dx = -7 ∧ (Ball.new 3 5).launch.dy = 3) := by
  refine ⟨fun b p h => ?_, fun b h => launch_none b h, ?_, ?_⟩
  · cases p with
    | one =>
        rw [launch_some b Player.one h]
        refine ⟨rfl, rfl, ?_, rfl⟩
        rw [if_neg (fun hc => Player.noConfusion hc),
          if_neg (fun hc => Player.noConfusion hc)]
    | two =>
        rw [launch_some b Player.two h]
        refine ⟨rfl, rfl, ?_, rfl⟩
        rw [if_pos rfl, if_pos rfl]
  · norm_num [Ball.new, Ball.attach_to_paddle, Ball.launch,
      Ball.get_skill_speed_multiplier]
  · norm_num [Ball.new, Ball.attach_to_paddle, Ball.launch,
      Ball.get_skill_speed_multiplier]

/-- C6 witness: a newly created ball is attached to player 2; launching it
frees it. -/
theorem ball_launch_spec_witness :
    (Ball.new 3 5).launch.attached_to = none :=
  (ball_launch_spec.1 (Ball.new 3 5) Player.two rfl).1

/-- C8: a response containing `POS: -45 12 False` parses to positions -45
and 12 with the button not pressed (shown both for the bare line and for a
response with surrounding terminal echo), and a poll whose response does not
match the pattern — or whose I/O raised — returns `false` and leaves every
field of the shared state unchanged. -/
theorem poll_parse_spec :
    searchPOS ("POS: -45 12 False".data) = some (-45, 12, false) ∧
    searchPOS (("print(1)\r\nPOS: -45 12 False\r\n>>> ").data) =
      some (-45, 12, false) ∧
    (∀ st : MotionState, read_motor_positions none st = (st, false)) ∧
    (∀ (st : MotionState) (r : String), searchPOS r.data = none →
        read_motor_positions (some r) st = (st, false)) := by
  refine ⟨by decide, by decide, fun st => rfl, fun st r h => ?_⟩
  simp only [read_motor_positions]
  rw [h]

/-- C8 witness: a garbage response mutates nothing and reports failure. -/
theorem poll_parse_spec_witness :
    read_motor_positions (some "garbage") initialMotionState =
      (initialMotionState, false) :=
  poll_parse_spec.2.2.2 initialMotionState "garbage" (by decide)

/-- C9: for paddle_height ≤ screen_height, `motor_to_paddle_y` clamps the
angle to [-90, 90] and maps it linearly onto [0, screen_height -
paddle_height]: at or below -90 it gives 0, at or above 90 it gives the
maximum, the result always lies in the range, and it is monotone
non-decreasing in the angle. -/
theorem motor_to_paddle_y_spec :
    ∀ (angle screen_height paddle_height : ℤ),
      paddle_height ≤ screen_height →
      (motor_to_paddle_y angle screen_height paddle_height =
        motor_to_paddle_y (max (-90) (min 90 angle)) screen_height paddle_height) ∧
      (angle ≤ -90 → motor_to_paddle_y angle screen_height paddle_height = 0) ∧
      (90 ≤ angle → motor_to_paddle_y angle screen_height paddle_height =
        screen_height - paddle_height) ∧
      (0 ≤ motor_to_paddle_y angle screen_height paddle_height ∧
        motor_to_paddle_y angle screen_height paddle_height ≤
          screen_height - paddle_height) ∧
      (∀ angle2 : ℤ, angle ≤ angle2 →
        motor_to_paddle_y angle screen_height paddle_height ≤
          motor_to_paddle_y angle2 screen_height paddle_height) := by
  intro a sh ph hph
  have hval : ∀ x : ℤ, motor_to_paddle_y x sh ph =
      pytrunc ((((max (-90) (min 90 x) : ℤ) : ℚ) + 90) / 180 * ((sh - ph : ℤ) : ℚ)) :=
    fun x => rfl
  have hm0 : (0 : ℤ) ≤ sh - ph := by omega
  have hmq : (0 : ℚ) ≤ ((sh - ph : ℤ) : ℚ) := by exact_mod_cast hm0
  have hclamp_lo : ∀ x : ℤ, (-90 : ℤ) ≤ max (-90) (min 90 x) := fun x => le_max_left _ _
  have hclamp_hi : ∀ x : ℤ, max (-90) (min 90 x) ≤ 90 :=
    fun x => max_le (by norm_num) (min_le_left _ _)
  have harg_nonneg : ∀ x : ℤ,
      (0 : ℚ) ≤ (((max (-90) (min 90 x) : ℤ) : ℚ) + 90) / 180 * ((sh - ph : ℤ) : ℚ) := by
    intro x
    apply mul_nonneg _ hmq
    apply div_nonneg _ (by norm_num)
    have : ((-90 : ℤ) : ℚ) ≤ ((max (-90) (min 90 x) : ℤ) : ℚ) := by
      exact_mod_cast hclamp_lo x
    push_cast at this ⊢
    linarith
  have harg_le : ∀ x : ℤ,
      (((max (-90) (min 90 x) : ℤ) : ℚ) + 90) / 180 * ((sh - ph : ℤ) : ℚ) ≤
        ((sh - ph : ℤ) : ℚ) := by
    intro x
    have hc : ((max (-90) (min 90 x) : ℤ) : ℚ) ≤ 90 := by exact_mod_cast hclamp_hi x
    have ht : (((max (-90) (min 90 x) : ℤ) : ℚ) + 90) / 180 ≤ 1 := by
      rw [div_le_one (by norm_num)]
      linarith
    calc (((max (-90) (min 90 x) : ℤ) : ℚ) + 90) / 180 * ((sh - ph : ℤ) : ℚ)
        ≤ 1 * ((sh - ph : ℤ) : ℚ) := mul_le_mul_of_nonneg_right ht hmq
      _ = ((sh - ph : ℤ) : ℚ) := one_mul _
  have hmono : ∀ x y : ℤ, x ≤ y →
      motor_to_paddle_y x sh ph ≤ motor_to_paddle_y y sh ph := by
    intro x y hxy
    rw [hval x, hval y]
    apply pytrunc_mono_nonneg (harg_nonneg x)
    apply mul_le_mul_of_nonneg_right _ hmq
    have hcc : max (-90) (min 90 x) ≤ max (-90) (min 90 y) := by omega
    have hccq : ((max (-90) (min 90 x) : ℤ) : ℚ) ≤ ((max (-90) (min 90 y) : ℤ) : ℚ) := by
      exact_mod_cast hcc
    exact (div_le_div_iff_of_pos_right (by norm_num)).mpr (by linarith)
  refine ⟨?_, ?_, ?_, ⟨?_, ?_⟩, fun a2 h2 => hmono a a2 h2⟩
  · rw [hval a, hval (max (-90) (min 90 a))]
    have hcl : max (-90) (min 90 (max (-90) (min 90 a))) = max (-90) (min 90 a) := by
      omega
    rw [hcl]
  · intro hle
    have hc : max (-90) (min 90 a) = -90 := by omega
    rw [hval a, hc]
    have h0 : ((((-90 : ℤ) : ℚ)) + 90) / 180 * ((sh - ph : ℤ) : ℚ) = 0 := by
      push_cast
      ring
    rw [h0]
    simp [pytrunc]
  · intro hge
    have hc : max (-90) (min 90 a) = 90 := by omega
    rw [hval a, hc]
    have h1 : ((((90 : ℤ) : ℚ)) + 90) / 180 * ((sh - ph : ℤ) : ℚ) = ((sh - ph : ℤ) : ℚ) := by
      push_cast
      ring
    rw [h1, pytrunc_intCast _ hm0]
  · rw [hval a, pytrunc_of_nonneg (harg_nonneg a)]
    exact Int.floor_nonneg.mpr (harg_nonneg a)
  · rw [hval a]
    calc pytrunc ((((max (-90) (min 90 a) : ℤ) : ℚ) + 90) / 180 * ((sh - ph : ℤ) : ℚ))
        ≤ pytrunc ((sh - ph : ℤ) : ℚ) :=
          pytrunc_mono_nonneg (harg_nonneg a) (harg_le a)
      _ = sh - ph := pytrunc_intCast _ hm0

/-- C9 witness: an angle of 200 degrees is clamped to 90 and maps to the
bottom of the travel range for a 600-pixel screen and 100-pixel paddle. -/
theorem motor_to_paddle_y_spec_witness :
    motor_to_paddle_y 200 600 100 = 600 - 100 :=
  (motor_to_paddle_y_spec 200 600 100 (by norm_num)).2.2.1 (by norm_num)

theorem abs_accelerate (d : ℤ) :
    |accelerate d| = (|d| : ℝ) ^ (1.5 : ℝ) * sensitivity := by
  have h1 : |(if 0 ≤ d then (1 : ℝ) else -1)| = 1 := by
    split <;> norm_num
  have h2 : (0 : ℝ) ≤ (|d| : ℝ) := by exact_mod_cast abs_nonneg d
  unfold accelerate
  rw [abs_mul, abs_mul, h1, one_mul,
    abs_of_nonneg (Real.rpow_nonneg h2 _),
    abs_of_nonneg (by norm_num [sensitivity] : (0 : ℝ) ≤ sensitivity)]

/-- C3: `accelerate` returns `sign(delta) * abs(delta)^1.5 * sensitivity`
with the sensitivity fixed at 1.5; it is zero at zero, has odd symmetry, and
its magnitude is strictly increasing in the magnitude of the delta. -/
theorem accelerate_spec :
    (∀ d : ℤ, accelerate d = Real.sign d * (|d| : ℝ) ^ (1.5 : ℝ) * sensitivity) ∧
    sensitivity = 1.5 ∧
    accelerate 0 = 0 ∧
    (∀ d : ℤ, accelerate (-d) = -accelerate d) ∧
    (∀ a b : ℤ, |a| < |b| → |accelerate a| < |accelerate b|) := by
  have h00 : accelerate 0 = 0 := by
    unfold accelerate
    norm_num
  refine ⟨fun d => ?_, rfl, h00, fun d => ?_, fun a b hab => ?_⟩
  · unfold accelerate
    rcases lt_trichotomy d 0 with hd | hd | hd
    · rw [if_neg (not_le.mpr hd), Real.sign_of_neg (by exact_mod_cast hd)]
    · rw [hd]
      norm_num [Real.sign_zero]
    · rw [if_pos hd.le, Real.sign_of_pos (by exact_mod_cast hd)]
  · rcases lt_trichotomy d 0 with hd | hd | hd
    · unfold accelerate
      rw [if_pos (by omega : (0:ℤ) ≤ -d), if_neg (not_le.mpr hd)]
      push_cast [abs_neg]
      ring
    · rw [hd, neg_zero, h00, neg_zero]
    · unfold accelerate
      rw [if_neg (by omega : ¬ (0:ℤ) ≤ -d), if_pos hd.le]
      push_cast [abs_neg]
      ring
  · rw [abs_accelerate, abs_accelerate]
    have hsens : (0 : ℝ) < sensitivity := by norm_num [sensitivity]
    apply mul_lt_mul_of_pos_right _ hsens
    exact Real.rpow_lt_rpow (by exact_mod_cast abs_nonneg a)
      (by exact_mod_cast hab) (by norm_num)

/-- C3 witness: the magnitude of the displacement at delta 2 strictly
exceeds the one at delta 1. -/
theorem accelerate_spec_witness :
    |accelerate 1| < |accelerate 2| :=
  accelerate_spec.2.2.2.2 1 2 (by decide)

theorem speedOK_bump {s : ℚ} (h1 : 7 ≤ s) :
    7 ≤ min (s + 1) 20 ∧ min (s + 1) 20 ≤ 20 :=
  ⟨le_min (by linarith) (by norm_num), min_le_right _ _⟩

theorem speedOK_hit1 (b : Ball) (p : Paddle) (h : SpeedOK b) :
    SpeedOK (b.hit1 p) := by
  unfold Ball.hit1
  split
  · refine ⟨h.1, ?_⟩
    dsimp only
    split
    · exact speedOK_bump h.2.1
    · exact h.2
  · exact h

theorem speedOK_hit2 (b : Ball) (p : Paddle) (h : SpeedOK b) :
    SpeedOK (b.hit2 p) := by
  unfold Ball.hit2
  split
  · refine ⟨h.1, ?_⟩
    dsimp only
    split
    · exact speedOK_bump h.2.1
    · exact h.2
  · exact h

theorem speedOK_wall (H : ℤ) (b : Ball) (h : SpeedOK b) : SpeedOK (b.wall H) := by
  unfold SpeedOK
  rw [wall_base_speed, wall_speed]
  exact h

theorem speedOK_move (b : Ball) (h : SpeedOK b) : SpeedOK b.move := h

theorem speedOK_attach (b : Ball) (p : Player) (h : SpeedOK b) :
    SpeedOK (b.attach_to_paddle p) := by
  unfold SpeedOK Ball.attach_to_paddle
  refine ⟨h.1, by rw [h.1], by rw [h.1]; norm_num⟩

theorem speedOK_launch (b : Ball) (h : SpeedOK b) : SpeedOK b.launch := by
  unfold Ball.launch
  cases hb : b.attached_to with
  | none => exact h
  | some p => exact h

theorem speedOK_update (W H : ℤ) (b : Ball) (p1 p2 : Paddle) (h : SpeedOK b) :
    SpeedOK (b.update W H p1 p2).1 := by
  unfold Ball.update
  split
  · exact h
  · split
    · exact h
    · exact speedOK_hit2 _ _ (speedOK_hit1 _ _ (speedOK_wall _ _ (speedOK_move _ h)))

theorem speedOK_step (b : Ball) (op : BallOp) (h : SpeedOK b) :
    SpeedOK (b.step op) := by
  cases op with
  | attach p => exact speedOK_attach b p h
  | launch => exact speedOK_launch b h
  | tick w hh p1 p2 => exact speedOK_update w hh b p1 p2 h

theorem speedOK_steps (ops : List BallOp) :
    ∀ b : Ball, SpeedOK b → SpeedOK (b.steps ops) := by
  induction ops with
  | nil => exact fun b h => h
  | cons op ops ih => exact fun b h => ih (b.step op) (speedOK_step b op h)

theorem speedOK_new (s1 s2 : ℤ) : SpeedOK (Ball.new s1 s2) :=
  ⟨rfl, by norm_num [Ball.new, Ball.attach_to_paddle, SpeedOK],
    by norm_num [Ball.new, Ball.attach_to_paddle, SpeedOK]⟩

theorem scorer_cases (W x : ℤ) (hW : BALL_SIZE < W) :
    ((if x ≤ 0 then some Player.two
      else if W ≤ x + BALL_SIZE then some Player.one
      else (none : Option Player)) = some Player.two ↔ x ≤ 0) ∧
    ((if x ≤ 0 then some Player.two
      else if W ≤ x + BALL_SIZE then some Player.one
      else (none : Option Player)) = some Player.one ↔ W ≤ x + BALL_SIZE) ∧
    ((if x ≤ 0 then some Player.two
      else if W ≤ x + BALL_SIZE then some Player.one
      else (none : Option Player)) = none ↔ (0 < x ∧ x + BALL_SIZE < W)) := by
  have hB : BALL_SIZE = 15 := rfl
  split_ifs with h1 h2 <;>
    refine ⟨?_, ?_, ?_⟩ <;>
    simp <;>
    omega

/-- C5: for a free ball (and any real screen, wider than the ball), update
returns scorer player 2 exactly when the ball reaches the left edge, scorer
player 1 exactly when the right side of the ball reaches the screen width, and no
scorer otherwise; and the score handling of the caller reattaches the ball to
the losing player — player 2 when player 1 scored. -/
theorem ball_update_scoring :
    (∀ (W H : ℤ) (b : Ball) (p1 p2 : Paddle),
        b.attached_to = none → BALL_SIZE < W →
        ((b.update W H p1 p2).2 = some Player.two ↔
          (b.update W H p1 p2).1.x ≤ 0) ∧
        ((b.update W H p1 p2).2 = some Player.one ↔
          W ≤ (b.update W H p1 p2).1.x + BALL_SIZE) ∧
        ((b.update W H p1 p2).2 = none ↔
          (0 < (b.update W H p1 p2).1.x ∧
            (b.update W H p1 p2).1.x + BALL_SIZE < W))) ∧
    (∀ (ball : Ball) (s1 s2 : ℤ),
        (handle_score ball (some Player.one) s1 s2).1.attached_to = some Player.two ∧
        (handle_score ball (some Player.one) s1 s2).2.1 = s1 + 1 ∧
        (handle_score ball (some Player.two) s1 s2).1.attached_to = some Player.one ∧
        (handle_score ball (some Player.two) s1 s2).2.2 = s2 + 1 ∧
        handle_score ball none s1 s2 = (ball, s1, s2)) := by
  refine ⟨fun W H b p1 p2 h hW => ?_, fun ball s1 s2 => ⟨rfl, rfl, rfl, rfl, rfl⟩⟩
  rw [update_free W H b p1 p2 h]
  exact scorer_cases W ((((b.move).wall H).hit1 p1).hit2 p2).x hW

/-- C5 witness: a free ball at x = 790 moving right by 10 crosses the right
edge of an 800-wide screen: player 1 scores, and the score handler then
attaches the ball to player 2. -/
theorem ball_update_scoring_witness :
    (sampleBallRight.update 800 600 samplePaddle1 samplePaddle2).2 =
      some Player.one :=
  ((ball_update_scoring.1 800 600 sampleBallRight samplePaddle1 samplePaddle2
      rfl (by norm_num [BALL_SIZE])).2.1).mpr
    (by norm_num [Ball.update, Ball.move, Ball.wall, Ball.hit1, Ball.hit2,
        colliderect, Ball.centery, Paddle.centery, pytrunc, sampleBallRight,
        samplePaddle1, samplePaddle2, BALL_SIZE, PADDLE_WIDTH,
        Ball.get_skill_speed_multiplier] ; decide)

theorem wall_skill_mult (H : ℤ) (b : Ball) (t : Player) :
    (b.wall H).get_skill_speed_multiplier t = b.get_skill_speed_multiplier t := by
  unfold Ball.wall; split <;> rfl

theorem move_skill_mult (b : Ball) (t : Player) :
    (b.move).get_skill_speed_multiplier t = b.get_skill_speed_multiplier t := rfl

/-- C4: when a free ball overlaps a paddle while moving toward it, update
increments the hit counter; on every 3rd hit the speed grows by 1 capped at
20 (and a speed already at the cap stays there); the new horizontal
velocity points away from the struck paddle with magnitude `speed *
multiplier of the opponent; the new vertical velocity is (centre offset / half
paddle height) * (speed * 0.8), so a dead-centre hit on paddle 1 gives dy
= 0; and wall contact (with no paddle hit) negates the vertical velocity
with unchanged magnitude. -/
theorem ball_update_paddle_hit :
    ∀ (W H : ℤ) (b : Ball) (p1 p2 : Paddle),
      b.attached_to = none →
      ((colliderect ((b.move).wall H) p1 = true → ((b.move).wall H).dx < 0 →
        colliderect ((b.move).wall H) p2 = false →
          (b.update W H p1 p2).1.hit_count = b.hit_count + 1 ∧
          (b.update W H p1 p2).1.speed =
            (if (b.hit_count + 1) % 3 = 0 then min (b.speed + 1) 20 else b.speed) ∧
          (b.speed = 20 → (b.update W H p1 p2).1.speed = 20) ∧
          (b.update W H p1 p2).1.dx =
            (b.update W H p1 p2).1.speed * b.get_skill_speed_multiplier Player.two ∧
          (b.update W H p1 p2).1.dy =
            ((((b.move).wall H).centery - p1.centery : ℤ) : ℚ) / ((p1.height : ℚ) / 2) *
              ((b.update W H p1 p2).1.speed * 0.8) ∧
          (((b.move).wall H).centery = p1.centery → (b.update W H p1 p2).1.dy = 0)) ∧
      (¬(colliderect ((b.move).wall H) p1 = true ∧ ((b.move).wall H).dx < 0) →
        colliderect ((b.move).wall H) p2 = true → 0 < ((b.move).wall H).dx →
          (b.update W H p1 p2).1.hit_count = b.hit_count + 1 ∧
          (b.update W H p1 p2).1.speed =
            (if (b.hit_count + 1) % 3 = 0 then min (b.speed + 1) 20 else b.speed) ∧
          (b.speed = 20 → (b.update W H p1 p2).1.speed = 20) ∧
          (b.update W H p1 p2).1.dx =
            -((b.update W H p1 p2).1.speed * b.get_skill_speed_multiplier Player.one) ∧
          (b.update W H p1 p2).1.dy =
            ((((b.move).wall H).centery - p2.centery : ℤ) : ℚ) / ((p2.height : ℚ) / 2) *
              ((b.update W H p1 p2).1.speed * 0.8)) ∧
      (((b.move).y ≤ 0 ∨ H ≤ (b.move).y + BALL_SIZE) →
        ¬(colliderect ((b.move).wall H) p1 = true ∧ ((b.move).wall H).dx < 0) →
        ¬(colliderect ((b.move).wall H) p2 = true ∧ 0 < ((b.move).wall H).dx) →
          (b.update W H p1 p2).1.dy = -b.dy ∧
          |(b.update W H p1 p2).1.dy| = |b.dy|)) := by
  intro W H b p1 p2 hatt
  have hu := update_free W H b p1 p2 hatt
  refine ⟨fun hc1 hdx1 hc2 => ?_, fun hn1 hc2 hdx2 => ?_, fun hwall hn1 hn2 => ?_⟩
  · have h1 := hit1_spec ((b.move).wall H) p1 hc1 hdx1
    have h2 : ((((b.move).wall H).hit1 p1).hit2 p2) = ((b.move).wall H).hit1 p1 := by
      apply hit2_not
      intro hcd
      rcases hcd with ⟨hcc, _⟩
      rw [colliderect_hit1, hc2] at hcc
      exact Bool.noConfusion hcc
    rw [hu, h2, h1]
    refine ⟨?_, ?_, fun h20 => ?_, ?_, ?_, fun hcen => ?_⟩
    · simp only [wall_hit_count, move_hit_count]
    · simp only [wall_speed, move_speed, wall_hit_count, move_hit_count]
    · simp only [wall_speed, move_speed, wall_hit_count, move_hit_count, h20]
      split_ifs <;> norm_num
    · simp only [wall_speed, move_speed, wall_hit_count, move_hit_count,
        wall_skill_mult, move_skill_mult]
    · simp only [wall_speed, move_speed, wall_hit_count, move_hit_count]
    · dsimp only
      rw [hcen, sub_self]
      norm_num
  · have h1 := hit1_not ((b.move).wall H) p1 hn1
    have h2 := hit2_spec ((b.move).wall H) p2 hc2 hdx2
    rw [hu, h1, h2]
    refine ⟨?_, ?_, fun h20 => ?_, ?_, ?_⟩
    · simp only [wall_hit_count, move_hit_count]
    · simp only [wall_speed, move_speed, wall_hit_count, move_hit_count]
    · simp only [wall_speed, move_speed, wall_hit_count, move_hit_count, h20]
      split_ifs <;> norm_num
    · simp only [wall_speed, move_speed, wall_hit_count, move_hit_count,
        wall_skill_mult, move_skill_mult]
    · simp only [wall_speed, move_speed, wall_hit_count, move_hit_count]
  · have h1 := hit1_not ((b.move).wall H) p1 hn1
    have h2 : ((((b.move).wall H).hit1 p1).hit2 p2) = ((b.move).wall H).hit1 p1 := by
      rw [h1]
      exact hit2_not _ _ hn2
    have hw := wall_spec H (b.move) hwall
    rw [hu, h2, h1, hw]
    simp only [move_dy]
    exact ⟨trivial, abs_neg b.dy⟩

/-- C4 witness: a concrete dead-centre hit on paddle 1 — the free sample
ball moves to overlap paddle 1 with its centre on the paddle centre; the
updated ball has dy = 0. -/
theorem ball_update_paddle_hit_witness :
    (sampleBall.update 800 600 samplePaddle1 samplePaddle2).1.dy = 0 :=
  ((ball_update_paddle_hit 800 600 sampleBall samplePaddle1 samplePaddle2
      rfl).1
    (by norm_num [Ball.move, Ball.wall, colliderect, pytrunc, sampleBall,
        samplePaddle1, BALL_SIZE, PADDLE_WIDTH])
    (by norm_num [Ball.move, Ball.wall, pytrunc, sampleBall, BALL_SIZE])
    (by norm_num [Ball.move, Ball.wall, colliderect, pytrunc, sampleBall,
        samplePaddle2, BALL_SIZE, PADDLE_WIDTH])).2.2.2.2.2
    (by norm_num [Ball.move, Ball.wall, Ball.centery, Paddle.centery, pytrunc,
        sampleBall, samplePaddle1, BALL_SIZE])

/-- C10: attaching resets the ball to the canonical attached state
(attached, zero velocity, speed back to the base speed, hit counter zero);
a new ball has base and current speed 7; along every sequence of attach,
launch and update operations from a new ball the speed stays in [7, 20];
and a trailing attach always restores speed 7, so rally speed never carries
into the next point. -/
theorem ball_speed_invariant :
    (∀ (b : Ball) (p : Player),
        (b.attach_to_paddle p).attached_to = some p ∧
        (b.attach_to_paddle p).dx = 0 ∧
        (b.attach_to_paddle p).dy = 0 ∧
        (b.attach_to_paddle p).speed = b.base_speed ∧
        (b.attach_to_paddle p).hit_count = 0) ∧
    (∀ s1 s2 : ℤ, (Ball.new s1 s2).speed = 7 ∧ (Ball.new s1 s2).base_speed = 7) ∧
    (∀ (s1 s2 : ℤ) (ops : List BallOp),
        7 ≤ ((Ball.new s1 s2).steps ops).speed ∧
          ((Ball.new s1 s2).steps ops).speed ≤ 20) ∧
    (∀ (s1 s2 : ℤ) (ops : List BallOp) (p : Player),
        ((Ball.new s1 s2).steps (ops ++ [BallOp.attach p])).speed = 7) := by
  refine ⟨fun b p => ⟨rfl, rfl, rfl, rfl, rfl⟩, fun s1 s2 => ⟨rfl, rfl⟩,
    fun s1 s2 ops => (speedOK_steps ops _ (speedOK_new s1 s2)).2, fun s1 s2 ops p => ?_⟩
  have hfold : (Ball.new s1 s2).steps (ops ++ [BallOp.attach p]) =
      (((Ball.new s1 s2).steps ops).step (BallOp.attach p)) := by
    unfold Ball.steps
    rw [List.foldl_append]
    rfl
  rw [hfold]
  have hOK := speedOK_steps ops _ (speedOK_new s1 s2)
  show ((((Ball.new s1 s2).steps ops)).attach_to_paddle p).speed = 7
  unfold Ball.attach_to_paddle
  exact hOK.1

end LegoPong
